import Mathlib

/-!
Shallow embedding of the network and loss definitions of
`src/src/model/model.py` (a MindSpore RandLA-Net variant with hierarchical
auxiliary supervision and self-enhancement losses).

Conventions of the embedding:

* A real tensor of shape `(B, C, N, K)` (NCHW layout, as in the source) is a
  function `Fin B → Fin C → Fin N → Fin K → ℝ`.
* An integer index tensor of shape `(B, N, K)` whose entries index into an
  axis of length `M` is a function `Fin B → Fin N → Fin K → Fin M`
  (MindSpore `GatherD` requires the indices to be in range).
* The learnable parameters of each `nn.Cell` are collected in a structure
  named after the cell; the cell's `construct` method becomes a Lean
  function of that structure.  Configuration that the source fixes at
  construction time (`bias`, `bn`, `activation_fn`, `use_pos_encoding`)
  is passed explicitly at each call site, mirroring the constructor
  arguments of the source.
* `nn.BatchNorm2d` is embedded in its training-mode semantics: per-channel
  normalisation by the batch statistics, with `eps = 1e-6` as in the source.
* The only random operation, the mask drawn inside `nn.Dropout()` of
  `fc_end`, is made an explicit input of `RandLANet.construct` (the mask
  argument stands for the already-scaled random keep mask).
* Floating point arithmetic is idealised as real arithmetic; the integer
  casts `P.cast(·, ms.int32)` / `astype(ms.float32)` that the source applies
  to exact 0/1 tensors are value preserving and are embedded as identities.
-/

namespace Model

noncomputable section

/-- Real tensor of shape `(B, C, N, K)`. -/
abbrev Tensor4 (B C N K : ℕ) : Type := Fin B → Fin C → Fin N → Fin K → ℝ

/-- Real tensor of shape `(B, C, N)`. -/
abbrev Tensor3 (B C N : ℕ) : Type := Fin B → Fin C → Fin N → ℝ

/-- Integer index tensor of shape `(B, N, K)` with entries in `[0, M)`. -/
abbrev IdxT (B N K M : ℕ) : Type := Fin B → Fin N → Fin K → Fin M

/-- `nn.LeakyReLU(alpha)`. -/
def leakyReLU (alpha x : ℝ) : ℝ := if x < 0 then alpha * x else x

/-- The logistic sigmoid. -/
def sigmoid (x : ℝ) : ℝ := 1 / (1 + Real.exp (-x))

/-- `P.SigmoidCrossEntropyWithLogits()(logit, label)` on one element. -/
def sigmoidCrossEntropyWithLogits (logit label : ℝ) : ℝ :=
  -(label * Real.log (sigmoid logit) + (1 - label) * Real.log (1 - sigmoid logit))

/-- Softmax along a `Fin C`-indexed axis. -/
def softmax {C : ℕ} (x : Fin C → ℝ) (j : Fin C) : ℝ :=
  Real.exp (x j) / ∑ k, Real.exp (x k)

/-- `nn.SoftmaxCrossEntropyWithLogits(sparse=False)` on one row. -/
def softmaxCrossEntropyWithLogits {C : ℕ} (logit target : Fin C → ℝ) : ℝ :=
  -(∑ j, target j * Real.log (softmax logit j))

/-- `nn.OneHot(depth)` on one integer label; an out-of-range label yields
the all-zero row (`off_value`) exactly as in MindSpore. -/
def oneHot (depth : ℕ) (l : ℤ) (c : Fin depth) : ℝ :=
  if l = (c.val : ℤ) then 1 else 0

/-- `P.ReduceMean()` over all entries of a rank-3 tensor. -/
def mean3 {B C N : ℕ} (t : Fin B → Fin C → Fin N → ℝ) : ℝ :=
  (∑ b, ∑ c, ∑ n, t b c n) / (B * C * N : ℝ)

/-- `P.ReduceMean()` over all entries of a rank-4 tensor. -/
def mean4 {B C N K : ℕ} (t : Tensor4 B C N K) : ℝ :=
  (∑ b, ∑ c, ∑ n, ∑ k, t b c n k) / (B * C * N * K : ℝ)

/-- `P.ReduceMax` along a nonempty `Fin K`-indexed axis. -/
def reduceMaxFin {K : ℕ} [NeZero K] (f : Fin K → ℝ) : ℝ :=
  Finset.univ.sup' ⟨⟨0, Nat.pos_of_ne_zero (NeZero.ne K)⟩, Finset.mem_univ _⟩ f

/-- Row-major flattening of a pair of indices `(p, k)` of a `(Np, K)`-shaped
axis pair into a single index of the reshaped `Np * K` axis. -/
def flatIdx {Np K : ℕ} (p : Fin Np) (k : Fin K) : Fin (Np * K) :=
  ⟨p.val * K + k.val, by
    have h1 : p.val + 1 ≤ Np := p.isLt
    have h2 : k.val < K := k.isLt
    calc p.val * K + k.val < p.val * K + K := by omega
      _ = (p.val + 1) * K := by ring
      _ ≤ Np * K := Nat.mul_le_mul_right K h1⟩

/-- First component of the inverse of `flatIdx` (integer division). -/
def unflatP {Np K : ℕ} (m : Fin (Np * K)) : Fin Np :=
  ⟨m.val / K, by
    have h := m.isLt
    rcases Nat.eq_zero_or_pos K with hK | hK
    · subst hK; omega
    · exact (Nat.div_lt_iff_lt_mul hK).mpr h⟩

/-- Second component of the inverse of `flatIdx` (remainder). -/
def unflatK {Np K : ℕ} (m : Fin (Np * K)) : Fin K :=
  ⟨m.val % K, by
    have h := m.isLt
    rcases Nat.eq_zero_or_pos K with hK | hK
    · subst hK; omega
    · exact Nat.mod_lt _ hK⟩

/-- `P.Concat(-3)` / `P.Concat(1)`: concatenation of two NCHW tensors along
the channel axis. -/
def catCh {B c1 c2 N K : ℕ} (t1 : Tensor4 B c1 N K) (t2 : Tensor4 B c2 N K) :
    Tensor4 B (c1 + c2) N K :=
  fun b c n k =>
    if h : c.val < c1 then t1 b ⟨c.val, h⟩ n k
    else t2 b ⟨c.val - c1, by have hc := c.isLt; omega⟩ n k

/-- Training-mode `nn.BatchNorm2d(C, eps=1e-6, momentum=0.99)`: per-channel
normalisation by the batch statistics over the `(B, N, K)` axes. -/
def batchNorm2d {C B N K : ℕ} (gamma beta : Fin C → ℝ) (x : Tensor4 B C N K) :
    Tensor4 B C N K :=
  fun b c n k =>
    let mu := (∑ b', ∑ n', ∑ k', x b' c n' k') / (B * N * K : ℝ)
    let var := (∑ b', ∑ n', ∑ k', (x b' c n' k' - mu) ^ 2) / (B * N * K : ℝ)
    gamma c * (x b c n k - mu) / Real.sqrt (var + 1e-6) + beta c

/-- Parameters of `SharedMLP(in_channels, out_channels, ...)`: a 1x1
(possibly transposed) convolution, which on 1x1 kernels is the pointwise
linear map `weight · x + bias`, and the batch-norm affine parameters. -/
structure SharedMLP (cin cout : ℕ) where
  weight : Fin cout → Fin cin → ℝ
  bias : Fin cout → ℝ
  gamma : Fin cout → ℝ
  beta : Fin cout → ℝ

/-- `SharedMLP.construct`.  The construction-time configuration is passed
explicitly: `has_bias` (constructor argument `bias`), `bn`, and
`activation_fn` (`none` or a scalar activation applied elementwise).
A transposed 1x1 convolution with stride 1 computes the same pointwise
linear map as `nn.Conv2d`, so `transpose` needs no separate case. -/
def SharedMLP.construct {cin cout B N K : ℕ} (m : SharedMLP cin cout)
    (has_bias bn : Bool) (act : Option (ℝ → ℝ)) (x : Tensor4 B cin N K) :
    Tensor4 B cout N K :=
  let conv : Tensor4 B cout N K := fun b c n k =>
    (∑ i, m.weight c i * x b i n k) + (if has_bias then m.bias c else 0)
  let normed : Tensor4 B cout N K := if bn then batchNorm2d m.gamma m.beta conv else conv
  match act with
  | some f => fun b c n k => f (normed b c n k)
  | none => normed

/-- Parameters of `AttentivePooling(in_channels, out_channels, bias)`:
the bias-free `nn.Dense` of `score_fn` and the output `SharedMLP`. -/
structure AttentivePooling (cin cout : ℕ) where
  score_weight : Fin cin → Fin cin → ℝ
  mlp : SharedMLP cin cout

/-- The attention scores of `AttentivePooling.construct`: the bias-free
dense layer followed by `nn.Softmax(-2)`, i.e. a softmax over the neighbor
axis `K`, expressed directly in the `(B, C, N, K)` layout. -/
def attentionScores {cin B N K : ℕ} (w : Fin cin → Fin cin → ℝ)
    (x : Tensor4 B cin N K) : Tensor4 B cin N K :=
  fun b c n k => softmax (fun k' => ∑ i, w c i * x b i n k') k

/-- `AttentivePooling.construct`: scores from `score_fn` on the
`(0,2,3,1)`-transposed input, transposed back, multiplied elementwise with
the input, summed over the neighbor axis, then the output `SharedMLP`
(`bn=True, activation_fn=LeakyReLU(0.2), bias=bias`). -/
def AttentivePooling.construct {cin cout B N K : ℕ}
    (ap : AttentivePooling cin cout) (bias : Bool) (x : Tensor4 B cin N K) :
    Tensor4 B cout N 1 :=
  let xt : Fin B → Fin N → Fin K → Fin cin → ℝ := fun b n k c => x b c n k
  let dense : Fin B → Fin N → Fin K → Fin cin → ℝ := fun b n k j =>
    ∑ i, ap.score_weight j i * xt b n k i
  let sm : Fin B → Fin N → Fin K → Fin cin → ℝ := fun b n k j =>
    Real.exp (dense b n k j) / ∑ k', Real.exp (dense b n k' j)
  let scores : Tensor4 B cin N K := fun b c n k => sm b n k c
  let features0 : Tensor4 B cin N K := fun b c n k => scores b c n k * x b c n k
  let features : Tensor4 B cin N 1 := fun b c n _ => ∑ k, features0 b c n k
  ap.mlp.construct bias true (some (leakyReLU 0.2)) features

/-- Parameters of `LocalSpatialEncoding(in_channel, out_channel, ...)`. -/
structure LocalSpatialEncoding (cin cout : ℕ) where
  mlp : SharedMLP cin cout

/-- The `use_pos_encoding=True` branch of `LocalSpatialEncoding.construct`:
relative point position encoding of the 10 channels
`[dist, relative_xyz, xyz_tile, neighbor_xyz]`, passed through the MLP, and
concatenated with the gathered neighbor features.  Returns the pair
`(f_xyz, f_concat)`. -/
def LocalSpatialEncoding.construct_pos {d B N K : ℕ}
    (lse : LocalSpatialEncoding 10 d) (bias : Bool)
    (coords : Fin B → Fin N → Fin 3 → ℝ) (features : Tensor4 B d N 1)
    (neighbor_idx : IdxT B N K N) :
    Tensor4 B d N K × Tensor4 B (d + d) N K :=
  let xyz_tile : Tensor4 B 3 N K := fun b c n _ => coords b n c
  let neighbor_xyz : Tensor4 B 3 N K := fun b c n k => xyz_tile b c (neighbor_idx b n k) k
  let relative_xyz : Tensor4 B 3 N K := fun b c n k => xyz_tile b c n k - neighbor_xyz b c n k
  let relative_dist : Tensor4 B 1 N K := fun b _ n k =>
    Real.sqrt (∑ c, relative_xyz b c n k ^ 2)
  let f_xyz0 : Tensor4 B 10 N K :=
    catCh relative_dist (catCh relative_xyz (catCh xyz_tile neighbor_xyz))
  let f_xyz : Tensor4 B d N K := lse.mlp.construct bias true (some (leakyReLU 0.2)) f_xyz0
  let f_tile : Tensor4 B d N K := fun b c n _ => features b c n 0
  let f_neighbours : Tensor4 B d N K := fun b c n k => f_tile b c (neighbor_idx b n k) k
  (f_xyz, catCh f_xyz f_neighbours)

/-- The `use_pos_encoding=False` branch of `LocalSpatialEncoding.construct`
(as instantiated for `lse2`, where `coords` is already a `(B, d, N, K)`
feature tensor): MLP on `coords`, concatenated with the gathered neighbor
features. -/
def LocalSpatialEncoding.construct_nopos {d B N K : ℕ}
    (lse : LocalSpatialEncoding d d) (bias : Bool)
    (coords : Tensor4 B d N K) (features : Tensor4 B d N 1)
    (neighbor_idx : IdxT B N K N) : Tensor4 B (d + d) N K :=
  let f_xyz : Tensor4 B d N K := lse.mlp.construct bias true (some (leakyReLU 0.2)) coords
  let f_tile : Tensor4 B d N K := fun b c n _ => features b c n 0
  let f_neighbours : Tensor4 B d N K := fun b c n k => f_tile b c (neighbor_idx b n k) k
  catCh f_xyz f_neighbours

/-- Parameters of `LocalFeatureAggregation(d_in, d_out, bias)`.  Here
`dHalf` stands for the source's `d_out // 2`; every `d_out` of the source is
even, so `d_out = dHalf + dHalf` and `2 * d_out = (dHalf+dHalf)+(dHalf+dHalf)`. -/
structure LocalFeatureAggregation (d_in dHalf : ℕ) where
  mlp1 : SharedMLP d_in dHalf
  mlp2 : SharedMLP (dHalf + dHalf) ((dHalf + dHalf) + (dHalf + dHalf))
  shortcut : SharedMLP d_in ((dHalf + dHalf) + (dHalf + dHalf))
  lse1 : LocalSpatialEncoding 10 dHalf
  lse2 : LocalSpatialEncoding dHalf dHalf
  pool1 : AttentivePooling (dHalf + dHalf) dHalf
  pool2 : AttentivePooling (dHalf + dHalf) (dHalf + dHalf)

/-- `LocalFeatureAggregation.construct`. -/
def LocalFeatureAggregation.construct {d_in dHalf B N K : ℕ}
    (lfa : LocalFeatureAggregation d_in dHalf) (bias : Bool)
    (coords : Fin B → Fin N → Fin 3 → ℝ) (features : Tensor4 B d_in N 1)
    (neighbor_idx : IdxT B N K N) :
    Tensor4 B ((dHalf + dHalf) + (dHalf + dHalf)) N 1 :=
  let f_pc : Tensor4 B dHalf N 1 :=
    lfa.mlp1.construct bias true (some (leakyReLU 0.2)) features
  let fp := lfa.lse1.construct_pos bias coords f_pc neighbor_idx
  let f_pc_agg : Tensor4 B dHalf N 1 := lfa.pool1.construct bias fp.2
  let f_concat : Tensor4 B (dHalf + dHalf) N K :=
    lfa.lse2.construct_nopos bias fp.1 f_pc_agg neighbor_idx
  let f_pc_agg2 : Tensor4 B (dHalf + dHalf) N 1 := lfa.pool2.construct bias f_concat
  fun b c n k =>
    leakyReLU 0.2
      (lfa.mlp2.construct bias true none f_pc_agg2 b c n k
        + lfa.shortcut.construct bias true none features b c n k)

/-- Parameters of `RandLANet(d_in, num_classes, bias)`.  The `nn.CellList`s
of the source have statically known lengths and per-slot channel widths, so
they are unrolled into individual fields (channel widths as in the source's
`__init__`).  The field `bias` records the constructor argument `bias`
that the source threads into every sub-cell. -/
structure RandLANet (d_in num_classes : ℕ) where
  bias : Bool
  fc_start_w : Fin 8 → Fin d_in → ℝ
  fc_start_b : Fin 8 → ℝ
  bn_start_gamma : Fin 8 → ℝ
  bn_start_beta : Fin 8 → ℝ
  encoder0 : LocalFeatureAggregation 8 8
  encoder1 : LocalFeatureAggregation 32 32
  encoder2 : LocalFeatureAggregation 128 64
  encoder3 : LocalFeatureAggregation 256 128
  encoder4 : LocalFeatureAggregation 512 256
  mlp : SharedMLP 1024 1024
  supervise0 : SharedMLP 1024 13
  supervise1 : SharedMLP 512 13
  supervise2 : SharedMLP 256 13
  supervise3 : SharedMLP 128 13
  supervise4 : SharedMLP 32 13
  supervise5 : SharedMLP 32 13
  Se0 : SharedMLP 512 10
  Se1 : SharedMLP 256 10
  Se2 : SharedMLP 128 10
  Se3 : SharedMLP 32 10
  decoder0 : SharedMLP 1536 512
  decoder1 : SharedMLP 768 256
  decoder2 : SharedMLP 384 128
  decoder3 : SharedMLP 160 32
  decoder4 : SharedMLP 64 32
  fc_end0 : SharedMLP 32 64
  fc_end1 : SharedMLP 64 32
  fc_end3 : SharedMLP 32 num_classes

/-- `RandLANet.random_sample(feature, pool_idx)`: tile `pool_idx` over the
channel axis, flatten the `(N', max_num)` axes, `P.GatherD` along the point
axis, reshape back and `P.ReduceMax(keep_dims=True)` over the last axis. -/
def RandLANet.random_sample {B d N Np K : ℕ} [NeZero K]
    (feature : Tensor4 B d N 1) (pool_idx : IdxT B Np K N) : Tensor4 B d Np 1 :=
  let squeezed : Fin B → Fin d → Fin N → ℝ := fun b c n => feature b c n 0
  let tiled : Fin B → Fin d → Fin Np → Fin K → Fin N := fun b _ p k => pool_idx b p k
  let flat : Fin B → Fin d → Fin (Np * K) → Fin N := fun b c m =>
    tiled b c (unflatP m) (unflatK m)
  let gathered : Fin B → Fin d → Fin (Np * K) → ℝ := fun b c m => squeezed b c (flat b c m)
  let reshaped : Fin B → Fin d → Fin Np → Fin K → ℝ := fun b c p k => gathered b c (flatIdx p k)
  fun b c p _ => reduceMaxFin (fun k => reshaped b c p k)

/-- `RandLANet.gather_neighbour(pc, neighbor_idx)` for a 13-channel tensor
`pc` of shape `(B, N, 13)` (the channel count 13 is hardcoded in the
source's `P.Tile` argument): the result at `(b, n, k, c)` is
`pc[b, neighbor_idx[b, n, k], c]`. -/
def RandLANet.gather_neighbour {B N K : ℕ} (pc : Fin B → Fin N → Fin 13 → ℝ)
    (neighbor_idx : IdxT B N K N) : Fin B → Fin N → Fin K → Fin 13 → ℝ :=
  let xyz_tile : Tensor4 B 13 N K := fun b c n _ => pc b n c
  let features : Tensor4 B 13 N K := fun b c n k => xyz_tile b c (neighbor_idx b n k) k
  fun b n k c => features b c n k

/-- The subexpression `P.ReduceMax()(self.gather_neighbour(ml, neighbor_idx), 2)`
that the encoder loop of `RandLANet.construct` applies twice per stage:
a max over the gathered neighbor axis. -/
def RandLANet.label_gather_max {B N K : ℕ} [NeZero K]
    (ml : Fin B → Fin N → Fin 13 → ℝ) (neighbor_idx : IdxT B N K N) :
    Fin B → Fin N → Fin 13 → ℝ :=
  fun b n c => reduceMaxFin (fun k => RandLANet.gather_neighbour ml neighbor_idx b n k c)

/-- One multihot-label downsampling step of the encoder loop of
`RandLANet.construct` (two neighbor gather-maxes, reshape to NCHW,
`random_sample` with the stage's `sub_idx`, reshape back). -/
def RandLANet.labelStep {B N Np K : ℕ} [NeZero K]
    (ml : Fin B → Fin N → Fin 13 → ℝ) (neighbor_idx : IdxT B N K N)
    (sub_idx : IdxT B Np K N) : Fin B → Fin Np → Fin 13 → ℝ :=
  let t1 := RandLANet.label_gather_max ml neighbor_idx
  let t2 := RandLANet.label_gather_max t1 neighbor_idx
  let t3 : Tensor4 B 13 N 1 := fun b c n _ => t2 b n c
  let sampled := RandLANet.random_sample t3 sub_idx
  fun b p c => sampled b c p 0

/-- The 6 multihot label tensors returned by `RandLANet.construct`
(`multihot_labels[i]` lives on the stage-`i` point set). -/
structure MultihotLabels (B N0 N1 N2 N3 N4 N5 : ℕ) where
  l0 : Fin B → Fin N0 → Fin 13 → ℝ
  l1 : Fin B → Fin N1 → Fin 13 → ℝ
  l2 : Fin B → Fin N2 → Fin 13 → ℝ
  l3 : Fin B → Fin N3 → Fin 13 → ℝ
  l4 : Fin B → Fin N4 → Fin 13 → ℝ
  l5 : Fin B → Fin N5 → Fin 13 → ℝ

/-- The 6 auxiliary supervision tensors returned by `RandLANet.construct`
(`supervised_features[k]` lives on the stage-`(5-k)` point set). -/
structure SupervisedFeatures (B N0 N1 N2 N3 N4 N5 : ℕ) where
  s0 : Fin B → Fin N5 → Fin 13 → ℝ
  s1 : Fin B → Fin N4 → Fin 13 → ℝ
  s2 : Fin B → Fin N3 → Fin 13 → ℝ
  s3 : Fin B → Fin N2 → Fin 13 → ℝ
  s4 : Fin B → Fin N1 → Fin 13 → ℝ
  s5 : Fin B → Fin N0 → Fin 13 → ℝ

/-- The 4 self-enhancement feature tensors returned by `RandLANet.construct`
(from decoder stages 0..3). -/
structure SeFeatures (B N1 N2 N3 N4 : ℕ) where
  e0 : Tensor4 B 10 N4 1
  e1 : Tensor4 B 10 N3 1
  e2 : Tensor4 B 10 N2 1
  e3 : Tensor4 B 10 N1 1

/-- `RandLANet.construct(xyz, feature, neighbor_idx, sub_idx, interp_idx, labels)`.
The statically-bounded loops `for i in range(5)` / `for j in range(5)` are
unrolled; `N0..N5` are the per-stage point counts, `K` the per-point
neighbor count shared by `neighbor_idx` and `sub_idx`.  The extra argument
`dropout_mask` embeds the random mask of `nn.Dropout()` in `fc_end`. -/
def RandLANet.construct {d_in num_classes B N0 N1 N2 N3 N4 N5 K : ℕ} [NeZero K]
    (net : RandLANet d_in num_classes)
    (xyz0 : Fin B → Fin N0 → Fin 3 → ℝ) (xyz1 : Fin B → Fin N1 → Fin 3 → ℝ)
    (xyz2 : Fin B → Fin N2 → Fin 3 → ℝ) (xyz3 : Fin B → Fin N3 → Fin 3 → ℝ)
    (xyz4 : Fin B → Fin N4 → Fin 3 → ℝ)
    (feature : Fin B → Fin N0 → Fin d_in → ℝ)
    (n0 : IdxT B N0 K N0) (n1 : IdxT B N1 K N1) (n2 : IdxT B N2 K N2)
    (n3 : IdxT B N3 K N3) (n4 : IdxT B N4 K N4)
    (s0 : IdxT B N1 K N0) (s1 : IdxT B N2 K N1) (s2 : IdxT B N3 K N2)
    (s3 : IdxT B N4 K N3) (s4 : IdxT B N5 K N4)
    (u0 : IdxT B N0 1 N1) (u1 : IdxT B N1 1 N2) (u2 : IdxT B N2 1 N3)
    (u3 : IdxT B N3 1 N4) (u4 : IdxT B N4 1 N5)
    (labels : Fin B → Fin N0 → ℤ) (dropout_mask : Tensor4 B 32 N0 1) :
    Tensor3 B num_classes N0 × MultihotLabels B N0 N1 N2 N3 N4 N5 ×
      SupervisedFeatures B N0 N1 N2 N3 N4 N5 × SeFeatures B N1 N2 N3 N4 :=
  -- fc_start, swapaxes(-2,-1), expand_dims(-1), then bn_start
  let f0 : Tensor4 B 8 N0 1 := fun b c n _ =>
    (∑ i, net.fc_start_w c i * feature b n i) + net.fc_start_b c
  let feat0 : Tensor4 B 8 N0 1 := fun b c n k =>
    leakyReLU 0.2 (batchNorm2d net.bn_start_gamma net.bn_start_beta f0 b c n k)
  -- multihot_labels[0] = cast(onehot(labels), int32)
  let ml0 : Fin B → Fin N0 → Fin 13 → ℝ := fun b n c => oneHot 13 (labels b n) c
  -- encoder loop, iteration i = 0..4
  let f_encoder_0 : Tensor4 B 32 N0 1 := net.encoder0.construct net.bias xyz0 feat0 n0
  let f_sampled_0 : Tensor4 B 32 N1 1 := RandLANet.random_sample f_encoder_0 s0
  let ml1 := RandLANet.labelStep ml0 n0 s0
  let f_encoder_1 : Tensor4 B 128 N1 1 := net.encoder1.construct net.bias xyz1 f_sampled_0 n1
  let f_sampled_1 : Tensor4 B 128 N2 1 := RandLANet.random_sample f_encoder_1 s1
  let ml2 := RandLANet.labelStep ml1 n1 s1
  let f_encoder_2 : Tensor4 B 256 N2 1 := net.encoder2.construct net.bias xyz2 f_sampled_1 n2
  let f_sampled_2 : Tensor4 B 256 N3 1 := RandLANet.random_sample f_encoder_2 s2
  let ml3 := RandLANet.labelStep ml2 n2 s2
  let f_encoder_3 : Tensor4 B 512 N3 1 := net.encoder3.construct net.bias xyz3 f_sampled_2 n3
  let f_sampled_3 : Tensor4 B 512 N4 1 := RandLANet.random_sample f_encoder_3 s3
  let ml4 := RandLANet.labelStep ml3 n3 s3
  let f_encoder_4 : Tensor4 B 1024 N4 1 := net.encoder4.construct net.bias xyz4 f_sampled_3 n4
  let f_sampled_4 : Tensor4 B 1024 N5 1 := RandLANet.random_sample f_encoder_4 s4
  let ml5 := RandLANet.labelStep ml4 n4 s4
  -- f_stack = [f_encoder_0, f_sampled_0, f_sampled_1, f_sampled_2, f_sampled_3, f_sampled_4]
  let featureM : Tensor4 B 1024 N5 1 :=
    net.mlp.construct true true (some (leakyReLU 0.2)) f_sampled_4
  -- decoder loop, iteration j = 0..4
  let sf0 : Fin B → Fin N5 → Fin 13 → ℝ := fun b n c =>
    net.supervise0.construct net.bias true none featureM b c n 0
  let f_interp_0 : Tensor4 B 1024 N4 1 := RandLANet.random_sample featureM u4
  let f_decoder_0 : Tensor4 B 512 N4 1 :=
    net.decoder0.construct net.bias true (some (leakyReLU 0.2)) (catCh f_sampled_3 f_interp_0)
  let se0 : Tensor4 B 10 N4 1 := net.Se0.construct net.bias true none f_decoder_0
  let sf1 : Fin B → Fin N4 → Fin 13 → ℝ := fun b n c =>
    net.supervise1.construct net.bias true none f_decoder_0 b c n 0
  let f_interp_1 : Tensor4 B 512 N3 1 := RandLANet.random_sample f_decoder_0 u3
  let f_decoder_1 : Tensor4 B 256 N3 1 :=
    net.decoder1.construct net.bias true (some (leakyReLU 0.2)) (catCh f_sampled_2 f_interp_1)
  let se1 : Tensor4 B 10 N3 1 := net.Se1.construct net.bias true none f_decoder_1
  let sf2 : Fin B → Fin N3 → Fin 13 → ℝ := fun b n c =>
    net.supervise2.construct net.bias true none f_decoder_1 b c n 0
  let f_interp_2 : Tensor4 B 256 N2 1 := RandLANet.random_sample f_decoder_1 u2
  let f_decoder_2 : Tensor4 B 128 N2 1 :=
    net.decoder2.construct net.bias true (some (leakyReLU 0.2)) (catCh f_sampled_1 f_interp_2)
  let se2 : Tensor4 B 10 N2 1 := net.Se2.construct net.bias true none f_decoder_2
  let sf3 : Fin B → Fin N2 → Fin 13 → ℝ := fun b n c =>
    net.supervise3.construct net.bias true none f_decoder_2 b c n 0
  let f_interp_3 : Tensor4 B 128 N1 1 := RandLANet.random_sample f_decoder_2 u1
  let f_decoder_3 : Tensor4 B 32 N1 1 :=
    net.decoder3.construct net.bias true (some (leakyReLU 0.2)) (catCh f_sampled_0 f_interp_3)
  let se3 : Tensor4 B 10 N1 1 := net.Se3.construct net.bias true none f_decoder_3
  let sf4 : Fin B → Fin N1 → Fin 13 → ℝ := fun b n c =>
    net.supervise4.construct net.bias true none f_decoder_3 b c n 0
  let f_interp_4 : Tensor4 B 32 N0 1 := RandLANet.random_sample f_decoder_3 u0
  let f_decoder_4 : Tensor4 B 32 N0 1 :=
    net.decoder4.construct net.bias true (some (leakyReLU 0.2)) (catCh f_encoder_0 f_interp_4)
  let sf5 : Fin B → Fin N0 → Fin 13 → ℝ := fun b n c =>
    net.supervise5.construct net.bias true none f_decoder_4 b c n 0
  -- fc_end: SharedMLP 32->64, SharedMLP 64->32, Dropout, SharedMLP 32->num_classes
  let x1 : Tensor4 B 64 N0 1 := net.fc_end0.construct net.bias true (some (leakyReLU 0.2)) f_decoder_4
  let x2 : Tensor4 B 32 N0 1 := net.fc_end1.construct net.bias true (some (leakyReLU 0.2)) x1
  let x3 : Tensor4 B 32 N0 1 := fun b c n k => x2 b c n k * dropout_mask b c n k
  let scores4 : Tensor4 B num_classes N0 1 := net.fc_end3.construct net.bias false none x3
  let scores : Tensor3 B num_classes N0 := fun b c n => scores4 b c n 0
  (scores, ⟨ml0, ml1, ml2, ml3, ml4, ml5⟩, ⟨sf0, sf1, sf2, sf3, sf4, sf5⟩,
    ⟨se0, se1, se2, se3⟩)

/-- Parameters of `WeightCEloss(weights, num_classes)`. -/
structure WeightCEloss (num_classes : ℕ) where
  weights : Fin num_classes → ℝ

/-- `WeightCEloss.construct(logits, labels)`: flatten `(B, C, N)` logits to
`(B*N, C)` rows via `swapaxes(-2,-1).reshape(-1, C)`, one-hot the flattened
labels, select the class weight of each point by summing
`weights * one_hot_labels` over the class axis, and average the weighted
per-point softmax cross-entropies. -/
def WeightCEloss.construct {num_classes B N : ℕ} (L : WeightCEloss num_classes)
    (logits : Tensor3 B num_classes N) (labels : Fin B → Fin N → ℤ) : ℝ :=
  let logit : Fin (B * N) → Fin num_classes → ℝ := fun i c => logits (unflatP i) c (unflatK i)
  let labelsFlat : Fin (B * N) → ℤ := fun i => labels (unflatP i) (unflatK i)
  let one_hot_labels : Fin (B * N) → Fin num_classes → ℝ := fun i c =>
    oneHot num_classes (labelsFlat i) c
  let weights : Fin (B * N) → ℝ := fun i => ∑ c, L.weights c * one_hot_labels i c
  let unweighted_loss : Fin (B * N) → ℝ := fun i =>
    softmaxCrossEntropyWithLogits (logit i) (one_hot_labels i)
  let weighted_loss : Fin (B * N) → ℝ := fun i => unweighted_loss i * weights i
  (∑ i, weighted_loss i) / (B * N : ℝ)

/-- `Hloss.construct(multihot_labels, supervised_features)`: the sum of the
mean sigmoid cross-entropies of the pairs `(supervised_features[k],
multihot_labels[5-k])` for `k = 0..3`, divided by 4. -/
def Hloss.construct {B N0 N1 N2 N3 N4 N5 : ℕ}
    (multihot_labels : MultihotLabels B N0 N1 N2 N3 N4 N5)
    (supervised_features : SupervisedFeatures B N0 N1 N2 N3 N4 N5) : ℝ :=
  let h_loss := mean3 (fun b n c =>
    sigmoidCrossEntropyWithLogits (supervised_features.s0 b n c) (multihot_labels.l5 b n c))
  let h_loss := h_loss + mean3 (fun b n c =>
    sigmoidCrossEntropyWithLogits (supervised_features.s1 b n c) (multihot_labels.l4 b n c))
  let h_loss := h_loss + mean3 (fun b n c =>
    sigmoidCrossEntropyWithLogits (supervised_features.s2 b n c) (multihot_labels.l3 b n c))
  let h_loss := h_loss + mean3 (fun b n c =>
    sigmoidCrossEntropyWithLogits (supervised_features.s3 b n c) (multihot_labels.l2 b n c))
  h_loss / 4

/-- `SEloss.construct(se_features_list)`: for each of the 4 feature tensors,
the target is the elementwise indicator of the features being `>= 0`; the
loss is the sum of the 4 mean sigmoid cross-entropies, divided by 4. -/
def SEloss.construct {B N1 N2 N3 N4 : ℕ} (se_features_list : SeFeatures B N1 N2 N3 N4) : ℝ :=
  let self_enhance_loss := mean4 (fun b c n k =>
    sigmoidCrossEntropyWithLogits (se_features_list.e0 b c n k)
      (if 0 ≤ se_features_list.e0 b c n k then 1 else 0))
  let self_enhance_loss := self_enhance_loss + mean4 (fun b c n k =>
    sigmoidCrossEntropyWithLogits (se_features_list.e1 b c n k)
      (if 0 ≤ se_features_list.e1 b c n k then 1 else 0))
  let self_enhance_loss := self_enhance_loss + mean4 (fun b c n k =>
    sigmoidCrossEntropyWithLogits (se_features_list.e2 b c n k)
      (if 0 ≤ se_features_list.e2 b c n k then 1 else 0))
  let self_enhance_loss := self_enhance_loss + mean4 (fun b c n k =>
    sigmoidCrossEntropyWithLogits (se_features_list.e3 b c n k)
      (if 0 ≤ se_features_list.e3 b c n k then 1 else 0))
  self_enhance_loss / 4

/-- Parameters of `RandLAWithLoss(network, weights, num_classes)`; the
source stores `network`, `weights` and builds `self.ce_loss =
WeightCEloss(weights, num_classes)` from the same `weights`. -/
structure RandLAWithLoss (d_in num_classes : ℕ) where
  network : RandLANet d_in num_classes
  weights : Fin num_classes → ℝ

/-- `RandLAWithLoss.construct(feature, labels, input_inds, cloud_inds,
p0..p4, n0..n4, pl0..pl4, u0..u4)`: run the network, compute the three
losses and return their sum.  The unused `input_inds` / `cloud_inds`
arguments of the source are kept; `dropout_mask` embeds the dropout
randomness of the network. -/
def RandLAWithLoss.construct {d_in num_classes B N0 N1 N2 N3 N4 N5 K : ℕ} [NeZero K]
    (model : RandLAWithLoss d_in num_classes)
    (feature : Fin B → Fin N0 → Fin d_in → ℝ) (labels : Fin B → Fin N0 → ℤ)
    (input_inds cloud_inds : Fin B → Fin N0 → ℤ)
    (p0 : Fin B → Fin N0 → Fin 3 → ℝ) (p1 : Fin B → Fin N1 → Fin 3 → ℝ)
    (p2 : Fin B → Fin N2 → Fin 3 → ℝ) (p3 : Fin B → Fin N3 → Fin 3 → ℝ)
    (p4 : Fin B → Fin N4 → Fin 3 → ℝ)
    (n0 : IdxT B N0 K N0) (n1 : IdxT B N1 K N1) (n2 : IdxT B N2 K N2)
    (n3 : IdxT B N3 K N3) (n4 : IdxT B N4 K N4)
    (pl0 : IdxT B N1 K N0) (pl1 : IdxT B N2 K N1) (pl2 : IdxT B N3 K N2)
    (pl3 : IdxT B N4 K N3) (pl4 : IdxT B N5 K N4)
    (u0 : IdxT B N0 1 N1) (u1 : IdxT B N1 1 N2) (u2 : IdxT B N2 1 N3)
    (u3 : IdxT B N3 1 N4) (u4 : IdxT B N4 1 N5)
    (dropout_mask : Tensor4 B 32 N0 1) : ℝ :=
  let out := model.network.construct p0 p1 p2 p3 p4 feature n0 n1 n2 n3 n4
    pl0 pl1 pl2 pl3 pl4 u0 u1 u2 u3 u4 labels dropout_mask
  let CE_loss := WeightCEloss.construct ⟨model.weights⟩ out.1 labels
  let h_loss := Hloss.construct out.2.1 out.2.2.1
  let se_loss := SEloss.construct out.2.2.2
  CE_loss + h_loss + se_loss

/-- A parameter group as produced by `get_param_groups`: the dict
`{'params': ..., 'weight_decay': 0.0}` or `{'params': ...}` (no override). -/
structure ParamGroup (α : Type) where
  params : List α
  weight_decay : Option ℝ

/-- `get_param_groups(network)`: split the trainable parameters by whether
the name ends with `.bias`, `.gamma` or `.beta`; those go to the first
group with `weight_decay = 0.0`, the rest to the second group without a
weight-decay override.  The parameter list and the name accessor `x.name`
are passed explicitly. -/
def get_param_groups {α : Type} (name : α → String) (trainable_params : List α) :
    List (ParamGroup α) :=
  let pr := trainable_params.partition (fun x =>
    (name x).endsWith ".bias" || (name x).endsWith ".gamma" || (name x).endsWith ".beta")
  [⟨pr.1, some 0⟩, ⟨pr.2, none⟩]

/-! ### Helper lemmas -/

theorem unflatP_flatIdx {Np K : ℕ} (p : Fin Np) (k : Fin K) :
    unflatP (flatIdx p k) = p := by
  have hK : 0 < K := Nat.lt_of_le_of_lt (Nat.zero_le k.val) k.isLt
  apply Fin.ext
  show (p.val * K + k.val) / K = p.val
  have h1 : p.val * K + k.val = K * p.val + k.val := by ring
  rw [h1, Nat.mul_add_div hK, Nat.div_eq_of_lt k.isLt]
  omega

theorem unflatK_flatIdx {Np K : ℕ} (p : Fin Np) (k : Fin K) :
    unflatK (flatIdx p k) = k := by
  apply Fin.ext
  show (p.val * K + k.val) % K = k.val
  have h1 : p.val * K + k.val = K * p.val + k.val := by ring
  rw [h1, Nat.mul_add_mod, Nat.mod_eq_of_lt k.isLt]

theorem flatIdx_unflat {Np K : ℕ} (m : Fin (Np * K)) :
    flatIdx (unflatP m) (unflatK m) = m := by
  apply Fin.ext
  show m.val / K * K + m.val % K = m.val
  have h := Nat.div_add_mod m.val K
  rw [Nat.mul_comm K (m.val / K)] at h
  exact h

theorem sum_unflat {B N : ℕ} (g : Fin B → Fin N → ℝ) :
    ∑ i : Fin (B * N), g (unflatP i) (unflatK i) = ∑ b, ∑ n, g b n := by
  have hbij : Function.Bijective (fun p : Fin B × Fin N => flatIdx p.1 p.2) := by
    apply Function.bijective_iff_has_inverse.mpr
    refine ⟨fun i => (unflatP i, unflatK i), fun p => ?_, fun i => flatIdx_unflat i⟩
    simp [unflatP_flatIdx, unflatK_flatIdx]
  have h := Fintype.sum_bijective _ hbij (fun p : Fin B × Fin N => g p.1 p.2)
    (fun i => g (unflatP i) (unflatK i))
    (fun p => by
      show g p.1 p.2 = g (unflatP (flatIdx p.1 p.2)) (unflatK (flatIdx p.1 p.2))
      rw [unflatP_flatIdx, unflatK_flatIdx])
  rw [← h, Fintype.sum_prod_type]

theorem random_sample_apply {B d N Np K : ℕ} [NeZero K] (feature : Tensor4 B d N 1)
    (pool_idx : IdxT B Np K N) (b : Fin B) (c : Fin d) (p : Fin Np) (z : Fin 1) :
    RandLANet.random_sample feature pool_idx b c p z
      = reduceMaxFin (fun k => feature b c (pool_idx b p k) 0) := by
  show reduceMaxFin (fun k =>
      feature b c (pool_idx b (unflatP (flatIdx p k)) (unflatK (flatIdx p k))) 0) = _
  exact congrArg reduceMaxFin (funext fun k => by rw [unflatP_flatIdx, unflatK_flatIdx])

theorem reduceMaxFin_comp_perm {K : ℕ} [NeZero K] (f : Fin K → ℝ)
    (σ : Equiv.Perm (Fin K)) : reduceMaxFin (fun k => f (σ k)) = reduceMaxFin f := by
  unfold reduceMaxFin
  apply le_antisymm
  · exact Finset.sup'_le _ _ fun k _ => Finset.le_sup' f (Finset.mem_univ (σ k))
  · apply Finset.sup'_le
    intro k _
    have h : f k = f (σ (σ.symm k)) := by rw [Equiv.apply_symm_apply]
    rw [h]
    exact Finset.le_sup' (fun k => f (σ k)) (Finset.mem_univ (σ.symm k))

theorem reduceMaxFin_mem01 {K : ℕ} [NeZero K] (f : Fin K → ℝ)
    (h : ∀ k, f k = 0 ∨ f k = 1) : reduceMaxFin f = 0 ∨ reduceMaxFin f = 1 := by
  have hmem : reduceMaxFin f ∈ ({x : ℝ | x = 0 ∨ x = 1} : Set ℝ) := by
    unfold reduceMaxFin
    apply Finset.sup'_mem
    · intro x hx y hy
      rcases hx with hx | hx <;> rcases hy with hy | hy <;> subst hx <;> subst hy
      · left
        exact sup_eq_left.mpr le_rfl
      · right
        exact sup_eq_right.mpr zero_le_one
      · right
        exact sup_eq_left.mpr zero_le_one
      · right
        exact sup_eq_left.mpr le_rfl
    · intro k _
      exact h k
  exact hmem

theorem oneHot_mem01 (depth : ℕ) (l : ℤ) (c : Fin depth) :
    oneHot depth l c = 0 ∨ oneHot depth l c = 1 := by
  unfold oneHot
  split <;> simp

theorem labelStep_mem01 {B N Np K : ℕ} [NeZero K]
    (ml : Fin B → Fin N → Fin 13 → ℝ) (nidx : IdxT B N K N) (sidx : IdxT B Np K N)
    (h : ∀ b n c, ml b n c = 0 ∨ ml b n c = 1) :
    ∀ b p c, RandLANet.labelStep ml nidx sidx b p c = 0 ∨
      RandLANet.labelStep ml nidx sidx b p c = 1 := by
  have hgm : ∀ (m : Fin B → Fin N → Fin 13 → ℝ),
      (∀ b n c, m b n c = 0 ∨ m b n c = 1) →
      ∀ b n c, RandLANet.label_gather_max m nidx b n c = 0 ∨
        RandLANet.label_gather_max m nidx b n c = 1 := by
    intro m hm b n c
    exact reduceMaxFin_mem01 _ (fun k => hm b (nidx b n k) c)
  intro b p c
  have h1 := hgm ml h
  have h2 := hgm (RandLANet.label_gather_max ml nidx) h1
  have hrw : RandLANet.labelStep ml nidx sidx b p c
      = RandLANet.random_sample
          (fun b' c' n' _ =>
            RandLANet.label_gather_max (RandLANet.label_gather_max ml nidx) nidx b' n' c')
          sidx b c p 0 := rfl
  rw [hrw, random_sample_apply]
  exact reduceMaxFin_mem01 _ (fun k => h2 b (sidx b p k) c)

theorem sum_softmax_eq_one {K' : ℕ} (v : Fin (K' + 1) → ℝ) :
    ∑ k, softmax v k = 1 := by
  unfold softmax
  rw [← Finset.sum_div]
  apply div_self
  exact ne_of_gt (Finset.sum_pos (fun i _ => Real.exp_pos _) Finset.univ_nonempty)

/-! ### Claim theorems -/

/-- C2: for every logits tensor of shape `(B, num_classes, N)` and integer
label tensor of shape `(B, N)`, `WeightCEloss.construct` returns the mean
over all `B*N` points of the softmax cross-entropy between that point's
logit row and the one-hot encoding of its label, multiplied by the class
weight of the point's true label, the weight being selected by summing
`weights * one_hot_labels` over the class axis. -/
theorem C2_weight_ce_pointwise_mean {num_classes B N : ℕ} (L : WeightCEloss num_classes)
    (logits : Tensor3 B num_classes N) (labels : Fin B → Fin N → ℤ) :
    WeightCEloss.construct L logits labels
      = (∑ b, ∑ n,
          softmaxCrossEntropyWithLogits (fun c => logits b c n)
              (fun c => oneHot num_classes (labels b n) c)
            * ∑ c, L.weights c * oneHot num_classes (labels b n) c) / (B * N : ℝ) :=
  congrArg (fun t => t / (B * N : ℝ))
    (sum_unflat (fun b n =>
      softmaxCrossEntropyWithLogits (fun c => logits b c n)
          (fun c => oneHot num_classes (labels b n) c)
        * ∑ c, L.weights c * oneHot num_classes (labels b n) c))

/-- C3: `Hloss.construct` returns the arithmetic mean of exactly four
terms, term `k` (for `k = 0..3`) being the mean sigmoid cross-entropy with
logits between `supervised_features[k]` and `multihot_labels[5-k]`;
`supervised_features[4]` and `supervised_features[5]` do not contribute. -/
theorem C3_hloss_four_terms {B N0 N1 N2 N3 N4 N5 : ℕ}
    (ml : MultihotLabels B N0 N1 N2 N3 N4 N5)
    (sf : SupervisedFeatures B N0 N1 N2 N3 N4 N5) :
    Hloss.construct ml sf
      = (mean3 (fun b n c => sigmoidCrossEntropyWithLogits (sf.s0 b n c) (ml.l5 b n c))
          + mean3 (fun b n c => sigmoidCrossEntropyWithLogits (sf.s1 b n c) (ml.l4 b n c))
          + mean3 (fun b n c => sigmoidCrossEntropyWithLogits (sf.s2 b n c) (ml.l3 b n c))
          + mean3 (fun b n c => sigmoidCrossEntropyWithLogits (sf.s3 b n c) (ml.l2 b n c))) / 4
    ∧ ∀ s4' s5', Hloss.construct ml ⟨sf.s0, sf.s1, sf.s2, sf.s3, s4', s5'⟩
        = Hloss.construct ml sf :=
  ⟨rfl, fun _ _ => rfl⟩

/-- C4: `SEloss.construct` returns the arithmetic mean over the four
feature tensors of the mean sigmoid cross-entropy with logits between each
tensor and the elementwise indicator of that same tensor being `>= 0`; in
particular the embedding is a pure function of `se_features_list` alone,
so `se_loss` is deterministic in it. -/
theorem C4_seloss_indicator_mean {B N1 N2 N3 N4 : ℕ} (se : SeFeatures B N1 N2 N3 N4) :
    SEloss.construct se
      = (mean4 (fun b c n k => sigmoidCrossEntropyWithLogits (se.e0 b c n k)
            (if 0 ≤ se.e0 b c n k then 1 else 0))
          + mean4 (fun b c n k => sigmoidCrossEntropyWithLogits (se.e1 b c n k)
            (if 0 ≤ se.e1 b c n k then 1 else 0))
          + mean4 (fun b c n k => sigmoidCrossEntropyWithLogits (se.e2 b c n k)
            (if 0 ≤ se.e2 b c n k then 1 else 0))
          + mean4 (fun b c n k => sigmoidCrossEntropyWithLogits (se.e3 b c n k)
            (if 0 ≤ se.e3 b c n k then 1 else 0))) / 4 :=
  rfl

/-- C6: `AttentivePooling.construct` computes attention scores by a
bias-free dense layer followed by a softmax over the neighbor axis `K`
(so for each batch element, point and channel the `K` scores sum to 1),
multiplies the scores elementwise with the input, sums over the neighbor
axis and applies the output `SharedMLP`; the `(B, d_out, N, 1)` output
shape is the type of the result. -/
theorem C6_attentive_pooling_formula {cin cout B N K' : ℕ}
    (ap : AttentivePooling cin cout) (bias : Bool) (x : Tensor4 B cin N (K' + 1)) :
    (∀ b c n, ∑ k, attentionScores ap.score_weight x b c n k = 1)
    ∧ ap.construct bias x
        = ap.mlp.construct bias true (some (leakyReLU 0.2))
            (fun b c n _ => ∑ k, attentionScores ap.score_weight x b c n k * x b c n k) :=
  ⟨fun b c n => sum_softmax_eq_one (fun k' => ∑ i, ap.score_weight c i * x b i n k'),
    rfl⟩

/-- C7: the pooling primitives are invariant to the ordering of neighbors:
permuting the neighbor axis of the input of `AttentivePooling.construct`,
or the last axis of the `pool_idx` of `RandLANet.random_sample`, leaves
the output unchanged. -/
theorem C7_neighbor_order_invariance {cin cout B N d Np K' : ℕ}
    (ap : AttentivePooling cin cout) (bias : Bool) (x : Tensor4 B cin N (K' + 1))
    (σ : Equiv.Perm (Fin (K' + 1))) (feature : Tensor4 B d N 1)
    (pool_idx : IdxT B Np (K' + 1) N) :
    ap.construct bias (fun b c n k => x b c n (σ k)) = ap.construct bias x
    ∧ RandLANet.random_sample feature (fun b p k => pool_idx b p (σ k))
        = RandLANet.random_sample feature pool_idx := by
  constructor
  · have key : ∀ y : Tensor4 B cin N (K' + 1),
        ap.construct bias y
          = ap.mlp.construct bias true (some (leakyReLU 0.2))
              (fun b c n _ => ∑ k, attentionScores ap.score_weight y b c n k * y b c n k) :=
      fun y => rfl
    rw [key, key]
    apply congrArg
    funext b c n z
    simp only [attentionScores, softmax]
    have hd : (∑ k', Real.exp (∑ i, ap.score_weight c i * x b i n (σ k')))
        = ∑ k', Real.exp (∑ i, ap.score_weight c i * x b i n k') :=
      Equiv.sum_comp σ (fun k' => Real.exp (∑ i, ap.score_weight c i * x b i n k'))
    rw [hd]
    exact Equiv.sum_comp σ (fun k =>
      Real.exp (∑ i, ap.score_weight c i * x b i n k)
          / (∑ k', Real.exp (∑ i, ap.score_weight c i * x b i n k'))
        * x b c n k)
  · funext b c p z
    rw [random_sample_apply, random_sample_apply]
    exact reduceMaxFin_comp_perm (fun k => feature b c (pool_idx b p k) 0) σ

/-- C8: `RandLANet.random_sample` is a deterministic gather-and-max
pooling: the output at `(b, c, p, 0)` is the maximum over `k` of
`feature[b, c, pool_idx[b, p, k], 0]` (the `(B, d, N', 1)` output shape is
the type of the result, and determinism is immediate since the embedding
is a pure function of its inputs). -/
theorem C8_random_sample_gather_max {B d N Np K' : ℕ} (feature : Tensor4 B d N 1)
    (pool_idx : IdxT B Np (K' + 1) N) :
    RandLANet.random_sample feature pool_idx
      = fun b c p _ => reduceMaxFin (fun k => feature b c (pool_idx b p k) 0) := by
  funext b c p z
  exact random_sample_apply feature pool_idx b c p z

/-- C10: `get_param_groups` partitions the trainable parameters into
exactly two groups: parameters whose name ends with `.bias`, `.gamma` or
`.beta` go to the first group, which carries `weight_decay = 0.0`, all
others go to the second group, which carries no weight-decay override, and
the two groups together are a permutation of the parameter list (no
parameter dropped or duplicated). -/
theorem C10_param_groups_partition {α : Type} (name : α → String) (ps : List α) :
    ∃ g1 g2, get_param_groups name ps = [g1, g2]
      ∧ g1.weight_decay = some 0 ∧ g2.weight_decay = none
      ∧ (∀ x, x ∈ g1.params ↔ x ∈ ps ∧
          ((name x).endsWith ".bias" = true ∨ (name x).endsWith ".gamma" = true ∨
            (name x).endsWith ".beta" = true))
      ∧ (∀ x, x ∈ g2.params ↔ x ∈ ps ∧
          ¬((name x).endsWith ".bias" = true ∨ (name x).endsWith ".gamma" = true ∨
            (name x).endsWith ".beta" = true))
      ∧ (g1.params ++ g2.params).Perm ps := by
  refine ⟨⟨ps.filter (fun x =>
      (name x).endsWith ".bias" || (name x).endsWith ".gamma" || (name x).endsWith ".beta"),
        some 0⟩,
    ⟨ps.filter (fun x =>
      !((name x).endsWith ".bias" || (name x).endsWith ".gamma" || (name x).endsWith ".beta")),
        none⟩, ?_, rfl, rfl, ?_, ?_, ?_⟩
  · unfold get_param_groups
    rw [List.partition_eq_filter_filter]
    rfl
  · intro x
    simp [List.mem_filter, Bool.or_eq_true, or_assoc]
  · intro x
    simp [List.mem_filter, Bool.or_eq_true, or_assoc, and_assoc, not_or]
  · exact List.filter_append_perm _ ps

/-- C1: for every network output, the total training loss returned by
`RandLAWithLoss.construct` equals the sum of exactly three terms: the
weighted cross-entropy computed by `WeightCEloss` on the final logits and
labels, the hierarchical auxiliary-supervision loss computed by `Hloss`,
and the self-enhancement loss computed by `SEloss`
(`loss = CE_loss + h_loss + se_loss`). -/
theorem C1_loss_is_sum_of_three_terms
    {d_in num_classes B N0 N1 N2 N3 N4 N5 K' : ℕ}
    (model : RandLAWithLoss d_in num_classes)
    (feature : Fin B → Fin N0 → Fin d_in → ℝ) (labels : Fin B → Fin N0 → ℤ)
    (input_inds cloud_inds : Fin B → Fin N0 → ℤ)
    (p0 : Fin B → Fin N0 → Fin 3 → ℝ) (p1 : Fin B → Fin N1 → Fin 3 → ℝ)
    (p2 : Fin B → Fin N2 → Fin 3 → ℝ) (p3 : Fin B → Fin N3 → Fin 3 → ℝ)
    (p4 : Fin B → Fin N4 → Fin 3 → ℝ)
    (n0 : IdxT B N0 (K' + 1) N0) (n1 : IdxT B N1 (K' + 1) N1) (n2 : IdxT B N2 (K' + 1) N2)
    (n3 : IdxT B N3 (K' + 1) N3) (n4 : IdxT B N4 (K' + 1) N4)
    (pl0 : IdxT B N1 (K' + 1) N0) (pl1 : IdxT B N2 (K' + 1) N1)
    (pl2 : IdxT B N3 (K' + 1) N2) (pl3 : IdxT B N4 (K' + 1) N3)
    (pl4 : IdxT B N5 (K' + 1) N4)
    (u0 : IdxT B N0 1 N1) (u1 : IdxT B N1 1 N2) (u2 : IdxT B N2 1 N3)
    (u3 : IdxT B N3 1 N4) (u4 : IdxT B N4 1 N5)
    (dropout_mask : Tensor4 B 32 N0 1) :
    RandLAWithLoss.construct model feature labels input_inds cloud_inds
        p0 p1 p2 p3 p4 n0 n1 n2 n3 n4 pl0 pl1 pl2 pl3 pl4 u0 u1 u2 u3 u4 dropout_mask
      = WeightCEloss.construct ⟨model.weights⟩
            (model.network.construct p0 p1 p2 p3 p4 feature n0 n1 n2 n3 n4
              pl0 pl1 pl2 pl3 pl4 u0 u1 u2 u3 u4 labels dropout_mask).1 labels
        + Hloss.construct
            (model.network.construct p0 p1 p2 p3 p4 feature n0 n1 n2 n3 n4
              pl0 pl1 pl2 pl3 pl4 u0 u1 u2 u3 u4 labels dropout_mask).2.1
            (model.network.construct p0 p1 p2 p3 p4 feature n0 n1 n2 n3 n4
              pl0 pl1 pl2 pl3 pl4 u0 u1 u2 u3 u4 labels dropout_mask).2.2.1
        + SEloss.construct
            (model.network.construct p0 p1 p2 p3 p4 feature n0 n1 n2 n3 n4
              pl0 pl1 pl2 pl3 pl4 u0 u1 u2 u3 u4 labels dropout_mask).2.2.2 :=
  rfl

/-- C9: the `multihot_labels` list returned by `RandLANet.construct` has
exactly 6 elements (the six fields of `MultihotLabels`); its first element
is the depth-13 one-hot encoding of the input labels (the int32 cast of
the source is value preserving on 0/1 entries), and every entry of every
element of the list is 0 or 1 (each subsequent element being obtained from
the previous one by neighbor gather-maxes and `random_sample`). -/
theorem C9_multihot_labels_binary
    {d_in num_classes B N0 N1 N2 N3 N4 N5 K' : ℕ}
    (net : RandLANet d_in num_classes)
    (xyz0 : Fin B → Fin N0 → Fin 3 → ℝ) (xyz1 : Fin B → Fin N1 → Fin 3 → ℝ)
    (xyz2 : Fin B → Fin N2 → Fin 3 → ℝ) (xyz3 : Fin B → Fin N3 → Fin 3 → ℝ)
    (xyz4 : Fin B → Fin N4 → Fin 3 → ℝ)
    (feature : Fin B → Fin N0 → Fin d_in → ℝ)
    (n0 : IdxT B N0 (K' + 1) N0) (n1 : IdxT B N1 (K' + 1) N1) (n2 : IdxT B N2 (K' + 1) N2)
    (n3 : IdxT B N3 (K' + 1) N3) (n4 : IdxT B N4 (K' + 1) N4)
    (s0 : IdxT B N1 (K' + 1) N0) (s1 : IdxT B N2 (K' + 1) N1) (s2 : IdxT B N3 (K' + 1) N2)
    (s3 : IdxT B N4 (K' + 1) N3) (s4 : IdxT B N5 (K' + 1) N4)
    (u0 : IdxT B N0 1 N1) (u1 : IdxT B N1 1 N2) (u2 : IdxT B N2 1 N3)
    (u3 : IdxT B N3 1 N4) (u4 : IdxT B N4 1 N5)
    (labels : Fin B → Fin N0 → ℤ) (dropout_mask : Tensor4 B 32 N0 1) :
    let ml := (net.construct xyz0 xyz1 xyz2 xyz3 xyz4 feature n0 n1 n2 n3 n4
      s0 s1 s2 s3 s4 u0 u1 u2 u3 u4 labels dropout_mask).2.1
    (∀ b n c, ml.l0 b n c = oneHot 13 (labels b n) c)
    ∧ (∀ b n c, ml.l0 b n c = 0 ∨ ml.l0 b n c = 1)
    ∧ (∀ b n c, ml.l1 b n c = 0 ∨ ml.l1 b n c = 1)
    ∧ (∀ b n c, ml.l2 b n c = 0 ∨ ml.l2 b n c = 1)
    ∧ (∀ b n c, ml.l3 b n c = 0 ∨ ml.l3 b n c = 1)
    ∧ (∀ b n c, ml.l4 b n c = 0 ∨ ml.l4 b n c = 1)
    ∧ (∀ b n c, ml.l5 b n c = 0 ∨ ml.l5 b n c = 1) := by
  intro ml
  have h0 : ∀ (b : Fin B) (n : Fin N0) (c : Fin 13),
      oneHot 13 (labels b n) c = 0 ∨ oneHot 13 (labels b n) c = 1 :=
    fun b n c => oneHot_mem01 13 (labels b n) c
  have h1 := labelStep_mem01 (fun b n c => oneHot 13 (labels b n) c) n0 s0 h0
  have h2 := labelStep_mem01 _ n1 s1 h1
  have h3 := labelStep_mem01 _ n2 s2 h2
  have h4 := labelStep_mem01 _ n3 s3 h3
  have h5 := labelStep_mem01 _ n4 s4 h4
  exact ⟨fun b n c => rfl, h0, h1, h2, h3, h4, h5⟩

/-- C5: `RandLANet.construct` realizes a hierarchical encoder-decoder:
after the input MLP and batch norm it applies exactly 5 encoder stages,
each a `LocalFeatureAggregation` followed by downsampling via
`random_sample` with that stage's `sub_idx`; then exactly 5 decoder
stages, each upsampling via `random_sample` with the matching `interp_idx`
and concatenating the encoder skip feature `f_stack[-j-2]` along the
channel axis before the decoder `SharedMLP`; the first returned value is
obtained from the last decoder output by `fc_end` and has shape
`(B, num_classes, N0)` (the type `Tensor3 B num_classes N0`), giving the
per-point segmentation scores. -/
theorem C5_encoder_decoder_structure
    {d_in num_classes B N0 N1 N2 N3 N4 N5 K' : ℕ}
    (net : RandLANet d_in num_classes)
    (xyz0 : Fin B → Fin N0 → Fin 3 → ℝ) (xyz1 : Fin B → Fin N1 → Fin 3 → ℝ)
    (xyz2 : Fin B → Fin N2 → Fin 3 → ℝ) (xyz3 : Fin B → Fin N3 → Fin 3 → ℝ)
    (xyz4 : Fin B → Fin N4 → Fin 3 → ℝ)
    (feature : Fin B → Fin N0 → Fin d_in → ℝ)
    (n0 : IdxT B N0 (K' + 1) N0) (n1 : IdxT B N1 (K' + 1) N1) (n2 : IdxT B N2 (K' + 1) N2)
    (n3 : IdxT B N3 (K' + 1) N3) (n4 : IdxT B N4 (K' + 1) N4)
    (s0 : IdxT B N1 (K' + 1) N0) (s1 : IdxT B N2 (K' + 1) N1) (s2 : IdxT B N3 (K' + 1) N2)
    (s3 : IdxT B N4 (K' + 1) N3) (s4 : IdxT B N5 (K' + 1) N4)
    (u0 : IdxT B N0 1 N1) (u1 : IdxT B N1 1 N2) (u2 : IdxT B N2 1 N3)
    (u3 : IdxT B N3 1 N4) (u4 : IdxT B N4 1 N5)
    (labels : Fin B → Fin N0 → ℤ) (dropout_mask : Tensor4 B 32 N0 1) :
    (net.construct xyz0 xyz1 xyz2 xyz3 xyz4 feature n0 n1 n2 n3 n4
        s0 s1 s2 s3 s4 u0 u1 u2 u3 u4 labels dropout_mask).1
      = (let f0 : Tensor4 B 8 N0 1 := fun b c n _ =>
           (∑ i, net.fc_start_w c i * feature b n i) + net.fc_start_b c
         let feat0 : Tensor4 B 8 N0 1 := fun b c n k =>
           leakyReLU 0.2 (batchNorm2d net.bn_start_gamma net.bn_start_beta f0 b c n k)
         -- five encoder stages: LocalFeatureAggregation, then random_sample with sub_idx
         let f_encoder_0 : Tensor4 B 32 N0 1 := net.encoder0.construct net.bias xyz0 feat0 n0
         let f_sampled_0 : Tensor4 B 32 N1 1 := RandLANet.random_sample f_encoder_0 s0
         let f_encoder_1 : Tensor4 B 128 N1 1 := net.encoder1.construct net.bias xyz1 f_sampled_0 n1
         let f_sampled_1 : Tensor4 B 128 N2 1 := RandLANet.random_sample f_encoder_1 s1
         let f_encoder_2 : Tensor4 B 256 N2 1 := net.encoder2.construct net.bias xyz2 f_sampled_1 n2
         let f_sampled_2 : Tensor4 B 256 N3 1 := RandLANet.random_sample f_encoder_2 s2
         let f_encoder_3 : Tensor4 B 512 N3 1 := net.encoder3.construct net.bias xyz3 f_sampled_2 n3
         let f_sampled_3 : Tensor4 B 512 N4 1 := RandLANet.random_sample f_encoder_3 s3
         let f_encoder_4 : Tensor4 B 1024 N4 1 := net.encoder4.construct net.bias xyz4 f_sampled_3 n4
         let f_sampled_4 : Tensor4 B 1024 N5 1 := RandLANet.random_sample f_encoder_4 s4
         let featureM : Tensor4 B 1024 N5 1 :=
           net.mlp.construct true true (some (leakyReLU 0.2)) f_sampled_4
         -- five decoder stages: random_sample with interp_idx, concat with the
         -- skip feature f_stack[-j-2], then the decoder SharedMLP
         let f_interp_0 : Tensor4 B 1024 N4 1 := RandLANet.random_sample featureM u4
         let f_decoder_0 : Tensor4 B 512 N4 1 :=
           net.decoder0.construct net.bias true (some (leakyReLU 0.2))
             (catCh f_sampled_3 f_interp_0)
         let f_interp_1 : Tensor4 B 512 N3 1 := RandLANet.random_sample f_decoder_0 u3
         let f_decoder_1 : Tensor4 B 256 N3 1 :=
           net.decoder1.construct net.bias true (some (leakyReLU 0.2))
             (catCh f_sampled_2 f_interp_1)
         let f_interp_2 : Tensor4 B 256 N2 1 := RandLANet.random_sample f_decoder_1 u2
         let f_decoder_2 : Tensor4 B 128 N2 1 :=
           net.decoder2.construct net.bias true (some (leakyReLU 0.2))
             (catCh f_sampled_1 f_interp_2)
         let f_interp_3 : Tensor4 B 128 N1 1 := RandLANet.random_sample f_decoder_2 u1
         let f_decoder_3 : Tensor4 B 32 N1 1 :=
           net.decoder3.construct net.bias true (some (leakyReLU 0.2))
             (catCh f_sampled_0 f_interp_3)
         let f_interp_4 : Tensor4 B 32 N0 1 := RandLANet.random_sample f_decoder_3 u0
         let f_decoder_4 : Tensor4 B 32 N0 1 :=
           net.decoder4.construct net.bias true (some (leakyReLU 0.2))
             (catCh f_encoder_0 f_interp_4)
         -- fc_end on the last decoder output, then squeeze(-1)
         let x1 : Tensor4 B 64 N0 1 :=
           net.fc_end0.construct net.bias true (some (leakyReLU 0.2)) f_decoder_4
         let x2 : Tensor4 B 32 N0 1 :=
           net.fc_end1.construct net.bias true (some (leakyReLU 0.2)) x1
         let x3 : Tensor4 B 32 N0 1 := fun b c n k => x2 b c n k * dropout_mask b c n k
         let scores4 : Tensor4 B num_classes N0 1 :=
           net.fc_end3.construct net.bias false none x3
         fun b c n => scores4 b c n 0) :=
  rfl

end

end Model
